import Mathlib

/-!
Shallow embedding of `src/local_damage.h` (gradient-enhanced continuum damage
constitutive law).  C++ `double` arithmetic is modelled by exact real
arithmetic on `ℝ`; Eigen vectors of static size `n` become `Fin n → ℝ`,
Eigen matrices become `Matrix (Fin m) (Fin n) ℝ`, and the dynamically sized
per-point history vector `Eigen::VectorXd _kappa` becomes a `List ℝ`.
`assert`-guarded operations of `QValues` return `Option`, `none` meaning the
assertion fired.
-/

namespace Damage

noncomputable section

/-- Modelled from the spec: the `Constraint` enumeration lives in the missing
`interfaces.h`; the spec lists the five dimensional-reduction modes
uniaxial-strain, uniaxial-stress, plane-strain, plane-stress, full-3D. -/
inductive Constraint
  | UNIAXIAL_STRAIN
  | UNIAXIAL_STRESS
  | PLANE_STRAIN
  | PLANE_STRESS
  | FULL
deriving DecidableEq

/-- Modelled from the spec: `Dim::Q` from the missing `interfaces.h` — the
dimension oracle returning the reduced strain dimension 1, 1, 3, 3, 6 for the
five constraint cases. -/
def Dim.Q : Constraint → ℕ
  | .UNIAXIAL_STRAIN => 1
  | .UNIAXIAL_STRESS => 1
  | .PLANE_STRAIN => 3
  | .PLANE_STRESS => 3
  | .FULL => 6

/-- `class DamageLawExponential` — construction parameters `_k0`, `_a`, `_b`. -/
structure DamageLawExponential where
  k0 : ℝ
  a : ℝ
  b : ℝ

/-- `DamageLawExponential::evaluate(double k)`:
if `k <= _k0` return `{0., 0.}`, else the exponential softening value and its
derivative. -/
def DamageLawExponential.evaluate (d : DamageLawExponential) (k : ℝ) : ℝ × ℝ :=
  if k ≤ d.k0 then (0, 0)
  else (1 - d.k0 / k * (1 - d.a + d.a * Real.exp (d.b * (d.k0 - k))),
        d.k0 / k * ((1 / k + d.b) * d.a * Real.exp (d.b * (d.k0 - k)) + (1 - d.a) / k))

/-- `InvariantI1(V<FULL> v)`: `I1 = v[0]+v[1]+v[2]`, gradient `(1,1,1,0,0,0)`. -/
def InvariantI1 (v : Fin 6 → ℝ) : ℝ × (Fin 6 → ℝ) :=
  (v 0 + v 1 + v 2, ![1, 1, 1, 0, 0, 0])

/-- `InvariantJ2(V<FULL> v)`: the second deviatoric invariant and its gradient,
transcribed componentwise. -/
def InvariantJ2 (v : Fin 6 → ℝ) : ℝ × (Fin 6 → ℝ) :=
  (((v 0 - v 1) * (v 0 - v 1) + (v 1 - v 2) * (v 1 - v 2) + (v 2 - v 0) * (v 2 - v 0)) / 6 +
     0.25 * (v 3 * v 3 + v 4 * v 4 + v 5 * v 5),
   ![(2 * v 0 - v 1 - v 2) / 3, (2 * v 1 - v 2 - v 0) / 3, (2 * v 2 - v 0 - v 1) / 3,
     0.5 * v 3, 0.5 * v 4, 0.5 * v 5])

/-- `T3D(double nu, Constraint c)`: the 6 × Dim::Q(c) constraint transform;
each case sets the listed entries of a zero matrix (FULL is the identity). -/
def T3D (nu : ℝ) : (c : Constraint) → Matrix (Fin 6) (Fin (Dim.Q c)) ℝ
  | .UNIAXIAL_STRAIN => Matrix.of fun i _ => if i = 0 then 1 else 0
  | .UNIAXIAL_STRESS => Matrix.of fun i _ =>
      if i = 0 then 1 else if i = 1 then -nu else if i = 2 then -nu else 0
  | .PLANE_STRAIN => Matrix.of fun i j =>
      if i = 0 ∧ (j : ℕ) = 0 then 1 else if i = 1 ∧ (j : ℕ) = 1 then 1 else
      if i = 5 ∧ (j : ℕ) = 2 then 1 else 0
  | .PLANE_STRESS => Matrix.of fun i j =>
      if i = 0 ∧ (j : ℕ) = 0 then 1 else if i = 1 ∧ (j : ℕ) = 1 then 1 else
      if i = 2 ∧ ((j : ℕ) = 0 ∨ (j : ℕ) = 1) then nu / (nu - 1) else
      if i = 5 ∧ (j : ℕ) = 2 then 1 else 0
  | .FULL => (1 : Matrix (Fin 6) (Fin 6) ℝ)

/-- `class ModMisesEeq` — stores `_K1`, `_K2`, `_nu` and the precomputed
transform `_T3D`. -/
structure ModMisesEeq (c : Constraint) where
  K1 : ℝ
  K2 : ℝ
  nu : ℝ
  t3d : Matrix (Fin 6) (Fin (Dim.Q c)) ℝ

/-- `ModMisesEeq::ModMisesEeq(double k, double nu, Constraint c)` — the
initializer list `_K1((k-1)/(2k(1-2nu)))`, `_K2(3/(k(1+nu)^2))`,
`_T3D(T3D(nu, c))`. -/
def ModMisesEeq.create (k nu : ℝ) (c : Constraint) : ModMisesEeq c :=
  ⟨(k - 1) / (2 * k * (1 - 2 * nu)), 3 / (k * (1 + nu) * (1 + nu)), nu, T3D nu c⟩

/-- `ModMisesEeq::evaluate(Eigen::VectorXd strain)`: transform to 3D, compute
invariants, the regularized norm `A`, `eeq`, and the gradient transported back
through `_T3D.transpose()`. -/
def ModMisesEeq.evaluate {c : Constraint} (m : ModMisesEeq c)
    (strain : Fin (Dim.Q c) → ℝ) : ℝ × (Fin (Dim.Q c) → ℝ) :=
  let strain3D := m.t3d.mulVec strain
  let i1 := InvariantI1 strain3D
  let j2 := InvariantJ2 strain3D
  let A := Real.sqrt (m.K1 * m.K1 * i1.1 * i1.1 + m.K2 * j2.1) + 1e-14
  let eeq := m.K1 * i1.1 + A
  let deeq_dI1 := m.K1 + m.K1 * m.K1 * i1.1 / A
  let deeq_dJ2 := m.K2 / (2 * A)
  let deeq := deeq_dI1 • i1.2 + deeq_dJ2 • j2.2
  (eeq, m.t3d.transpose.mulVec deeq)

/-- `class LocalDamage` — fields `_C`, `_omega`, `_eeq`, `_kappa`.  The
elasticity matrix `_C` is produced by the out-of-scope collaborator
`C(E, nu, c)` from `interfaces.h`; here it is carried as the field `Cmat`. -/
structure LocalDamage (c : Constraint) where
  Cmat : Matrix (Fin (Dim.Q c)) (Fin (Dim.Q c)) ℝ
  omega : DamageLawExponential
  eeq : ModMisesEeq c
  kappa : List ℝ

/-- `LocalDamage(E, nu, c, ft, alpha, gf, k)` — initializer list
`_C(C(E, nu, c))`, `_omega(ft/E, alpha, ft/gf)`, `_eeq(k, nu, c)`; the
collaborator-built elasticity matrix is passed in as `Cmat`; `_kappa` starts
as the empty `Eigen::VectorXd`. -/
def LocalDamage.create {c : Constraint} (Cmat : Matrix (Fin (Dim.Q c)) (Fin (Dim.Q c)) ℝ)
    (E nu ft alpha gf k : ℝ) : LocalDamage c :=
  ⟨Cmat, ⟨ft / E, alpha, ft / gf⟩, ModMisesEeq.create k nu c, []⟩

/-- `LocalDamage::evaluate_kappa(double eeq, double kappa)`:
`eeq >= kappa` gives `{eeq, 1.}`, else `{kappa, 0}`. -/
def LocalDamage.evaluate_kappa (eeq kappa : ℝ) : ℝ × ℝ :=
  if kappa ≤ eeq then (eeq, 1) else (kappa, 0)

/-- `LocalDamage::resize(int n)`: `_kappa.resize(n)`.  Eigen's destructive
`resize` is a no-op when the size is unchanged and otherwise reallocates
leaving the coefficients uninitialized; the unspecified memory contents are
modelled by the `fill` values. -/
def LocalDamage.resize {c : Constraint} (ld : LocalDamage c) (n : ℕ) (fill : ℕ → ℝ) :
    LocalDamage c :=
  if n = ld.kappa.length then ld else { ld with kappa := (List.range n).map fill }

/-- `LocalDamage::evaluate(const Eigen::VectorXd& strain, int i)`: chains
`_eeq.evaluate`, `evaluate_kappa` against `_kappa[i]`, `_omega.evaluate`, and
returns stress `(1-omega)*C*strain` and the tangent with the outer-product
correction.  The second component is the object state after the call (no
member is written). -/
def LocalDamage.evaluate {c : Constraint} (ld : LocalDamage c)
    (strain : Fin (Dim.Q c) → ℝ) (i : ℕ) :
    ((Fin (Dim.Q c) → ℝ) × Matrix (Fin (Dim.Q c)) (Fin (Dim.Q c)) ℝ) × LocalDamage c :=
  let ed := ld.eeq.evaluate strain
  let kd := LocalDamage.evaluate_kappa ed.1 (ld.kappa.getD i 0)
  let od := ld.omega.evaluate kd.1
  (((1 - od.1) • ld.Cmat.mulVec strain,
    (1 - od.1) • ld.Cmat - (od.2 * kd.2) • Matrix.vecMulVec (ld.Cmat.mulVec strain) ed.2),
   ld)

/-- `LocalDamage::qdim()`: `_C.rows()`. -/
def LocalDamage.qdim {c : Constraint} (_ : LocalDamage c) : ℕ := Dim.Q c

/-- `LocalDamage::update(const Eigen::VectorXd& strain, int i)`: recompute eeq
and commit `_kappa[i] = evaluate_kappa(eeq, _kappa[i]).first`. -/
def LocalDamage.update {c : Constraint} (ld : LocalDamage c)
    (strain : Fin (Dim.Q c) → ℝ) (i : ℕ) : LocalDamage c :=
  let eeq := (ld.eeq.evaluate strain).1
  let kappa := (LocalDamage.evaluate_kappa eeq (ld.kappa.getD i 0)).1
  { ld with kappa := ld.kappa.set i kappa }

/-- An `Eigen::MatrixXd` of dynamic shape, as passed to `QValues::Set`. -/
structure MatD where
  r : ℕ
  c : ℕ
  entry : ℕ → ℕ → ℝ

/-- The column-major flattening `Eigen::Map<Eigen::VectorXd>(value.data(), value.size())`. -/
def MatD.flatten (v : MatD) : List ℝ :=
  (List.range (v.r * v.c)).map fun t => v.entry (t % v.r) (t / v.r)

/-- `class QValues`: `n * rows * cols` flat storage for per-point values. -/
structure QValues where
  rows : ℕ
  cols : ℕ
  data : List ℝ

/-- `QValues(int rows, int cols = 1)` — `data` starts empty. -/
def QValues.create (rows : ℕ) (cols : ℕ := 1) : QValues := ⟨rows, cols, []⟩

/-- `QValues::Resize(int n)`: `data.setZero(n * _rows * _cols)`. -/
def QValues.Resize (q : QValues) (n : ℕ) : QValues :=
  { q with data := List.replicate (n * q.rows * q.cols) 0 }

/-- Overwrite the length-`seg.length` segment of `l` starting at `off`
(`data.segment(off, len) = ...`). -/
def writeSegment (l : List ℝ) (off : ℕ) (seg : List ℝ) : List ℝ :=
  l.take off ++ seg ++ l.drop (off + seg.length)

/-- `QValues::Set(double value, int i)`: asserts `_rows == 1 && _cols == 1`,
then `data[i] = value`. -/
def QValues.SetScalar (q : QValues) (value : ℝ) (i : ℕ) : Option QValues :=
  if q.rows = 1 ∧ q.cols = 1 then some { q with data := q.data.set i value } else none

/-- `QValues::Set(Eigen::MatrixXd value, int i)`: asserts
`value.rows() == _rows && value.cols() == _cols`, then writes the column-major
flattening into `data.segment(_rows*_cols*i, _rows*_cols)`. -/
def QValues.Set (q : QValues) (value : MatD) (i : ℕ) : Option QValues :=
  if value.r = q.rows ∧ value.c = q.cols then
    some { q with data := writeSegment q.data (q.rows * q.cols * i) value.flatten }
  else none

/-- `QValues::GetScalar(int i)`: asserts `_rows == 1 && _cols == 1`, returns
`data[i]`. -/
def QValues.GetScalar (q : QValues) (i : ℕ) : Option ℝ :=
  if q.rows = 1 ∧ q.cols = 1 then some (q.data.getD i 0) else none

/-- `QValues::Get(int i)`: the `_rows × _cols` block of point `i`, column-major. -/
def QValues.Get (q : QValues) (i : ℕ) : MatD :=
  ⟨q.rows, q.cols, fun a b => q.data.getD (q.rows * q.cols * i + b * q.rows + a) 0⟩

/-- The five values `GradientDamage::evaluate` writes into the `out`
containers `EEQ`, `SIGMA`, `DEEQ`, `DSIGMA_DE`, `DSIGMA_DEPS`. -/
structure GDOutputs (q : ℕ) where
  eeq : ℝ
  sigma : Fin q → ℝ
  deeq : Fin q → ℝ
  dsigma_de : Fin q → ℝ
  dsigma_deps : Matrix (Fin q) (Fin q) ℝ

/-- `class GradientDamage` — fields `_C`, `_omega`, `_strain_norm` and the
history `QValues _kappa`. -/
structure GradientDamage (c : Constraint) where
  Cmat : Matrix (Fin (Dim.Q c)) (Fin (Dim.Q c)) ℝ
  omega : DamageLawExponential
  strain_norm : ModMisesEeq c
  kappa : QValues

/-- `GradientDamage(E, nu, c, ft, alpha, beta, k)` — initializer list
`_C(C(E, nu, c))`, `_omega(ft/E, alpha, beta)`, `_strain_norm(k, nu, c)`,
`_kappa(1)`; the collaborator-built elasticity matrix is passed as `Cmat`. -/
def GradientDamage.create {c : Constraint}
    (Cmat : Matrix (Fin (Dim.Q c)) (Fin (Dim.Q c)) ℝ)
    (E nu ft alpha beta k : ℝ) : GradientDamage c :=
  ⟨Cmat, ⟨ft / E, alpha, beta⟩, ModMisesEeq.create k nu c, QValues.create 1⟩

/-- `GradientDamage::resize(int n)`: `_kappa.Resize(n)`. -/
def GradientDamage.resize {c : Constraint} (gd : GradientDamage c) (n : ℕ) :
    GradientDamage c :=
  { gd with kappa := gd.kappa.Resize n }

/-- `GradientDamage::evaluate_kappa(double eeq, double kappa)`: identical to
the local law's loading function. -/
def GradientDamage.evaluate_kappa (eeq kappa : ℝ) : ℝ × ℝ :=
  if kappa ≤ eeq then (eeq, 1) else (kappa, 0)

/-- `GradientDamage::evaluate(strain, e, out, i)`: reads `_kappa.GetScalar(i)`
(assert-guarded, hence `Option`), chains `evaluate_kappa`, `_omega.evaluate`,
`_strain_norm.evaluate` and produces the five output values; the history is
not written, so the returned state is the input object. -/
def GradientDamage.evaluate {c : Constraint} (gd : GradientDamage c)
    (strain : Fin (Dim.Q c) → ℝ) (e : ℝ) (i : ℕ) :
    Option (GDOutputs (Dim.Q c) × GradientDamage c) :=
  (gd.kappa.GetScalar i).map fun ki =>
    let kd := GradientDamage.evaluate_kappa e ki
    let od := gd.omega.evaluate kd.1
    let ed := gd.strain_norm.evaluate strain
    ({ eeq := ed.1
       sigma := (1 - od.1) • gd.Cmat.mulVec strain
       deeq := ed.2
       dsigma_de := (-(od.2 * kd.2)) • gd.Cmat.mulVec strain
       dsigma_deps := (1 - od.1) • gd.Cmat }, gd)

/-- `GradientDamage::qdim()`: `_C.rows()`. -/
def GradientDamage.qdim {c : Constraint} (_ : GradientDamage c) : ℕ := Dim.Q c

/-- `GradientDamage::update(strain, neeq, i)`:
`_kappa.Set(evaluate_kappa(neeq, _kappa.GetScalar(i)).first, i)` (the strain
argument is unused by the body). -/
def GradientDamage.update {c : Constraint} (gd : GradientDamage c)
    (_strain : Fin (Dim.Q c) → ℝ) (neeq : ℝ) (i : ℕ) : Option (GradientDamage c) :=
  (gd.kappa.GetScalar i).bind fun ki =>
    (gd.kappa.SetScalar (GradientDamage.evaluate_kappa neeq ki).1 i).map fun kq =>
      { gd with kappa := kq }

/-- Sample local law used to instantiate hypotheses at concrete inputs:
`LocalDamage(E = 1, nu = 0, UNIAXIAL_STRAIN, ft = 1, alpha = 0, gf = 1, k = 1)`
with the zero elasticity matrix standing in for the collaborator's `C`. -/
def ldSample : LocalDamage Constraint.UNIAXIAL_STRAIN :=
  LocalDamage.create 0 1 0 1 0 1 1

/-- Sample gradient-enhanced law:
`GradientDamage(E = 1, nu = 0, UNIAXIAL_STRAIN, ft = 1, alpha = 0, beta = 0, k = 1)`. -/
def gdSample : GradientDamage Constraint.UNIAXIAL_STRAIN :=
  GradientDamage.create 0 1 0 1 0 0 1

/-- C1: `evaluate_kappa` (identical in both laws) returns `(eeq, 1)` whenever
`eeq ≥ storedKappa` — the tie taking the loading branch — and
`(storedKappa, 0)` whenever `eeq < storedKappa`; the returned derivative is
always exactly 0 or 1. -/
theorem evaluate_kappa_branches (eeq kappa : ℝ) :
    (kappa ≤ eeq →
      LocalDamage.evaluate_kappa eeq kappa = (eeq, 1) ∧
      GradientDamage.evaluate_kappa eeq kappa = (eeq, 1)) ∧
    (eeq < kappa →
      LocalDamage.evaluate_kappa eeq kappa = (kappa, 0) ∧
      GradientDamage.evaluate_kappa eeq kappa = (kappa, 0)) ∧
    ((LocalDamage.evaluate_kappa eeq kappa).2 = 0 ∨
      (LocalDamage.evaluate_kappa eeq kappa).2 = 1) ∧
    ((GradientDamage.evaluate_kappa eeq kappa).2 = 0 ∨
      (GradientDamage.evaluate_kappa eeq kappa).2 = 1) := by
  unfold LocalDamage.evaluate_kappa GradientDamage.evaluate_kappa
  refine ⟨fun h => ?_, fun h => ?_, ?_, ?_⟩
  · simp [if_pos h]
  · rw [if_neg (not_le.mpr h)]
    exact ⟨rfl, rfl⟩
  · by_cases h : kappa ≤ eeq <;> simp [h]
  · by_cases h : kappa ≤ eeq <;> simp [h]

lemma evaluate_kappa_fst_le (e k : ℝ) : k ≤ (LocalDamage.evaluate_kappa e k).1 := by
  unfold LocalDamage.evaluate_kappa
  split
  · next h => exact h
  · exact le_refl k

lemma gradient_evaluate_kappa_eq (e k : ℝ) :
    GradientDamage.evaluate_kappa e k = LocalDamage.evaluate_kappa e k := rfl

lemma getD_set_le (l : List ℝ) (j : ℕ) (v : ℝ) (i : ℕ) (hv : l.getD j 0 ≤ v) :
    l.getD i 0 ≤ (l.set j v).getD i 0 := by
  by_cases hij : i = j
  · subst hij
    by_cases hlen : i < l.length
    · have hset : (l.set i v).getD i 0 = v := by
        rw [List.getD_eq_getElem?_getD (l.set i v) i 0, List.getElem?_set_self hlen]
        rfl
      rw [hset]
      exact hv
    · rw [List.set_eq_of_length_le (le_of_not_lt hlen)]
  · rw [List.getD_eq_getElem?_getD (l.set j v),
      List.getElem?_set_ne (fun hh => hij hh.symm), ← List.getD_eq_getElem?_getD]

/-- Witness for C1 at the concrete inputs (2, 1) and (1, 2). -/
theorem evaluate_kappa_branches_witness :
    ((1 : ℝ) ≤ 2 ∧ LocalDamage.evaluate_kappa 2 1 = (2, 1) ∧
      GradientDamage.evaluate_kappa 2 1 = (2, 1)) ∧
    ((1 : ℝ) < 2 ∧ LocalDamage.evaluate_kappa 1 2 = (2, 0) ∧
      GradientDamage.evaluate_kappa 1 2 = (2, 0)) := by
  refine ⟨⟨by norm_num, ?_⟩, ⟨by norm_num, ?_⟩⟩
  · exact (evaluate_kappa_branches 2 1).1 (by norm_num)
  · exact (evaluate_kappa_branches 1 2).2.1 (by norm_num)

/-- C2 (counterexample): `LocalDamage::resize` uses Eigen's destructive
`VectorXd::resize`, which does not zero-initialize: resizing the fresh sample
law from 0 to 1 point with memory contents 7 leaves a stored kappa of 7, not
0, so the claim that both laws end up zero-initialized is false. -/
theorem resize_zero_counterexample :
    (ldSample.resize 1 (fun _ => 7)).kappa.getD 0 0 ≠ 0 := by
  have : (ldSample.resize 1 (fun _ => 7)).kappa = [7] := by
    unfold ldSample LocalDamage.create LocalDamage.resize
    norm_num [List.range_succ]
  rw [this]
  norm_num

/-- C2 (amended): `resize(n)` leaves the per-point history array with length
`n` in both laws; the gradient-enhanced law's `QValues::Resize` zero-fills
its `n * rows * cols` entries, while the local law's Eigen `resize` leaves
the values unspecified (arbitrary memory contents, modelled by `fill`). -/
theorem resize_length_and_gradient_zero {c : Constraint} (ld : LocalDamage c)
    (gd : GradientDamage c) (n : ℕ) (fill : ℕ → ℝ) :
    (ld.resize n fill).kappa.length = n ∧
    (gd.resize n).kappa.data = List.replicate (n * gd.kappa.rows * gd.kappa.cols) 0 := by
  constructor
  · unfold LocalDamage.resize
    split
    · next h => exact h.symm
    · simp
  · rfl

/-- C3: for every strain input, point index and (for the gradient law)
nonlocal equivalent strain, `evaluate` leaves the stored history array
unchanged at every index: the local law's returned state is the input state,
and every successful gradient-law evaluation returns the input history. -/
theorem evaluate_preserves_kappa {c : Constraint} (ld : LocalDamage c)
    (strain : Fin (Dim.Q c) → ℝ) (i : ℕ) (gd : GradientDamage c)
    (gstrain : Fin (Dim.Q c) → ℝ) (e : ℝ) (j : ℕ) :
    (ld.evaluate strain i).2.kappa = ld.kappa ∧
    (gd.evaluate gstrain e j).map (fun p => p.2.kappa) =
      (gd.evaluate gstrain e j).map (fun _ => gd.kappa) := by
  refine ⟨rfl, ?_⟩
  unfold GradientDamage.evaluate
  cases gd.kappa.GetScalar j <;> rfl

/-- C4: committing the history via `update` never decreases a stored kappa:
for every state, driving input and indices, the value at index `i` after an
update at index `j` is at least the value before (for the gradient law, for
every successful update). -/
theorem update_kappa_monotone {c : Constraint} (ld : LocalDamage c)
    (strain : Fin (Dim.Q c) → ℝ) (i j : ℕ) (gd : GradientDamage c)
    (gstrain : Fin (Dim.Q c) → ℝ) (neeq : ℝ) (gd' : GradientDamage c)
    (h : gd.update gstrain neeq j = some gd') :
    ld.kappa.getD i 0 ≤ (ld.update strain j).kappa.getD i 0 ∧
    gd.kappa.data.getD i 0 ≤ gd'.kappa.data.getD i 0 := by
  constructor
  · exact getD_set_le _ _ _ _ (evaluate_kappa_fst_le _ _)
  · unfold GradientDamage.update at h
    cases hg : gd.kappa.GetScalar j with
    | none => rw [hg] at h; exact absurd h (by simp)
    | some ki =>
      rw [hg, Option.some_bind] at h
      have hki : ki = gd.kappa.data.getD j 0 := by
        unfold QValues.GetScalar at hg
        by_cases hrc : gd.kappa.rows = 1 ∧ gd.kappa.cols = 1
        · rw [if_pos hrc] at hg; exact (Option.some.inj hg).symm
        · rw [if_neg hrc] at hg; cases hg
      cases hs : gd.kappa.SetScalar (GradientDamage.evaluate_kappa neeq ki).1 j with
      | none => rw [hs] at h; exact absurd h (by simp)
      | some kq =>
        rw [hs, Option.map_some'] at h
        have hgd : gd' = { gd with kappa := kq } := (Option.some.inj h).symm
        have hkq : kq = { gd.kappa with
            data := gd.kappa.data.set j (GradientDamage.evaluate_kappa neeq ki).1 } := by
          unfold QValues.SetScalar at hs
          by_cases hrc : gd.kappa.rows = 1 ∧ gd.kappa.cols = 1
          · rw [if_pos hrc] at hs; exact (Option.some.inj hs).symm
          · rw [if_neg hrc] at hs; cases hs
        rw [hgd, hkq]
        exact getD_set_le _ _ _ _
          (by rw [gradient_evaluate_kappa_eq, ← hki]
              exact hki ▸ evaluate_kappa_fst_le neeq ki)

/-- Witness for C4 at the sample gradient law, driving value 1, index 0. -/
theorem update_kappa_monotone_witness :
    gdSample.update 0 1 0 = some gdSample ∧
    ldSample.kappa.getD 0 0 ≤ (ldSample.update 0 0).kappa.getD 0 0 ∧
    gdSample.kappa.data.getD 0 0 ≤ gdSample.kappa.data.getD 0 0 := by
  have h : gdSample.update 0 1 0 = some gdSample := by
    unfold gdSample GradientDamage.create GradientDamage.update QValues.GetScalar
      QValues.SetScalar QValues.create GradientDamage.evaluate_kappa
    norm_num
  exact ⟨h, update_kappa_monotone ldSample 0 0 0 gdSample 0 1 gdSample h⟩

lemma softening_factor_pos (a x : ℝ) (ha0 : 0 ≤ a) (ha1 : a ≤ 1) :
    0 < 1 - a + a * Real.exp x := by
  rcases eq_or_lt_of_le ha1 with h1 | h1
  · rw [h1]
    have := Real.exp_pos x
    linarith
  · have : 0 ≤ a * Real.exp x := mul_nonneg ha0 (Real.exp_pos x).le
    linarith

lemma softening_factor_le_one (a x : ℝ) (ha0 : 0 ≤ a) (hx : x ≤ 0) :
    1 - a + a * Real.exp x ≤ 1 := by
  have h := mul_le_mul_of_nonneg_left (Real.exp_le_one_iff.mpr hx) ha0
  linarith

lemma omega_val (k0 a b k : ℝ) (hk : k0 < k) :
    ((DamageLawExponential.mk k0 a b).evaluate k).1 =
      1 - k0 / k * (1 - a + a * Real.exp (b * (k0 - k))) := by
  unfold DamageLawExponential.evaluate
  rw [if_neg (not_le.mpr hk)]

/-- C5: with the physically meaningful construction parameters (positive
threshold `k0 = ft/E`, residual-stiffness fraction `0 ≤ alpha ≤ 1`,
softening rate `beta ≥ 0`), `DamageLawExponential::evaluate` returns `(0,0)`
for every `kappa ≤ k0`, returns a damage value strictly between 0 and 1 for
every `kappa > k0`, and is strictly increasing in kappa past the threshold. -/
theorem damage_law_props (k0 a b kl k k1 k2 : ℝ) (h0 : 0 < k0) (ha0 : 0 ≤ a)
    (ha1 : a ≤ 1) (hb : 0 ≤ b) :
    (kl ≤ k0 → (DamageLawExponential.mk k0 a b).evaluate kl = (0, 0)) ∧
    (k0 < k → 0 < ((DamageLawExponential.mk k0 a b).evaluate k).1 ∧
      ((DamageLawExponential.mk k0 a b).evaluate k).1 < 1) ∧
    (k0 < k1 → k1 < k2 →
      ((DamageLawExponential.mk k0 a b).evaluate k1).1 <
        ((DamageLawExponential.mk k0 a b).evaluate k2).1) := by
  refine ⟨fun hkl => ?_, fun hk => ?_, fun hk1 hk12 => ?_⟩
  · unfold DamageLawExponential.evaluate
    rw [if_pos hkl]
  · have hkpos : 0 < k := h0.trans hk
    have hx : b * (k0 - k) ≤ 0 := mul_nonpos_iff.mpr (Or.inl ⟨hb, by linarith⟩)
    have hgpos := softening_factor_pos a (b * (k0 - k)) ha0 ha1
    have hgle := softening_factor_le_one a (b * (k0 - k)) ha0 hx
    have hdiv : 0 < k0 / k := div_pos h0 hkpos
    have hdivlt : k0 / k < 1 := (div_lt_one hkpos).mpr hk
    rw [omega_val k0 a b k hk]
    constructor
    · have := mul_le_mul_of_nonneg_left hgle hdiv.le
      nlinarith
    · have := mul_pos hdiv hgpos
      linarith
  · have hp1 : 0 < k1 := h0.trans hk1
    have hp2 : 0 < k2 := hp1.trans hk12
    have hexp : Real.exp (b * (k0 - k2)) ≤ Real.exp (b * (k0 - k1)) :=
      Real.exp_le_exp.mpr (mul_le_mul_of_nonneg_left (by linarith) hb)
    have hgmono : 1 - a + a * Real.exp (b * (k0 - k2)) ≤
        1 - a + a * Real.exp (b * (k0 - k1)) := by
      have := mul_le_mul_of_nonneg_left hexp ha0
      linarith
    have hg2pos := softening_factor_pos a (b * (k0 - k2)) ha0 ha1
    have hfrac : k0 / k2 < k0 / k1 := by
      rw [div_lt_div_iff₀ hp2 hp1]
      nlinarith
    have hlt : k0 / k2 * (1 - a + a * Real.exp (b * (k0 - k2))) <
        k0 / k1 * (1 - a + a * Real.exp (b * (k0 - k1))) :=
      calc k0 / k2 * (1 - a + a * Real.exp (b * (k0 - k2)))
          < k0 / k1 * (1 - a + a * Real.exp (b * (k0 - k2))) :=
            mul_lt_mul_of_pos_right hfrac hg2pos
        _ ≤ k0 / k1 * (1 - a + a * Real.exp (b * (k0 - k1))) :=
            mul_le_mul_of_nonneg_left hgmono (div_pos h0 hp1).le
    rw [omega_val k0 a b k1 hk1, omega_val k0 a b k2 (hk1.trans hk12)]
    linarith

/-- Witness for C5 at `k0 = 1`, `alpha = 1/2`, `beta = 1`, kappa values
`1/2`, `2`, `3`. -/
theorem damage_law_props_witness :
    (DamageLawExponential.mk 1 (1/2) 1).evaluate (1/2) = (0, 0) ∧
    (0 < ((DamageLawExponential.mk 1 (1/2) 1).evaluate 2).1 ∧
      ((DamageLawExponential.mk 1 (1/2) 1).evaluate 2).1 < 1) ∧
    ((DamageLawExponential.mk 1 (1/2) 1).evaluate 2).1 <
      ((DamageLawExponential.mk 1 (1/2) 1).evaluate 3).1 := by
  have T := damage_law_props 1 (1/2) 1 (1/2) 2 2 3 (by norm_num) (by norm_num)
    (by norm_num) (by norm_num)
  exact ⟨T.1 (by norm_num), T.2.1 (by norm_num), T.2.2 (by norm_num) (by norm_num)⟩

lemma evaluate_fst {c : Constraint} (m : ModMisesEeq c) (strain : Fin (Dim.Q c) → ℝ) :
    (m.evaluate strain).1 =
      m.K1 * (InvariantI1 (m.t3d.mulVec strain)).1 +
        (Real.sqrt (m.K1 * m.K1 * (InvariantI1 (m.t3d.mulVec strain)).1 *
            (InvariantI1 (m.t3d.mulVec strain)).1 +
          m.K2 * (InvariantJ2 (m.t3d.mulVec strain)).1) + 1e-14) := rfl

lemma invariantJ2_nonneg (v : Fin 6 → ℝ) : 0 ≤ (InvariantJ2 v).1 := by
  unfold InvariantJ2
  dsimp only
  nlinarith [mul_self_nonneg (v 0 - v 1), mul_self_nonneg (v 1 - v 2),
    mul_self_nonneg (v 2 - v 0), mul_self_nonneg (v 3), mul_self_nonneg (v 4),
    mul_self_nonneg (v 5)]

lemma eeq_lower_bound {c : Constraint} (m : ModMisesEeq c) (hK2 : 0 ≤ m.K2)
    (strain : Fin (Dim.Q c) → ℝ) : (1e-14 : ℝ) ≤ (m.evaluate strain).1 := by
  rw [evaluate_fst]
  have hJ2 := invariantJ2_nonneg (m.t3d.mulVec strain)
  set I1 := (InvariantI1 (m.t3d.mulVec strain)).1
  set J2 := (InvariantJ2 (m.t3d.mulVec strain)).1
  have h2 : -(m.K1 * I1) ≤ Real.sqrt (m.K1 * m.K1 * I1 * I1 + m.K2 * J2) :=
    calc -(m.K1 * I1) ≤ |m.K1 * I1| := neg_le_abs _
      _ = Real.sqrt ((m.K1 * I1) ^ 2) := (Real.sqrt_sq_eq_abs _).symm
      _ ≤ Real.sqrt (m.K1 * m.K1 * I1 * I1 + m.K2 * J2) :=
          Real.sqrt_le_sqrt (by nlinarith [mul_nonneg hK2 hJ2])
  linarith

/-- C10: for every `ModMisesEeq` built with asymmetry ratio `k > 0` and every
reduced strain vector, the returned equivalent strain is at least the
regularizer `1e-14`, hence strictly positive; in particular a fresh point
(stored kappa 0) always takes the loading branch of `evaluate_kappa`. -/
theorem eeq_positive {c : Constraint} (k nu : ℝ) (hk : 0 < k)
    (strain : Fin (Dim.Q c) → ℝ) :
    (1e-14 : ℝ) ≤ ((ModMisesEeq.create k nu c).evaluate strain).1 ∧
    0 < ((ModMisesEeq.create k nu c).evaluate strain).1 ∧
    LocalDamage.evaluate_kappa ((ModMisesEeq.create k nu c).evaluate strain).1 0 =
      (((ModMisesEeq.create k nu c).evaluate strain).1, 1) ∧
    GradientDamage.evaluate_kappa ((ModMisesEeq.create k nu c).evaluate strain).1 0 =
      (((ModMisesEeq.create k nu c).evaluate strain).1, 1) := by
  have hK2 : 0 ≤ (ModMisesEeq.create k nu c).K2 := by
    unfold ModMisesEeq.create
    dsimp only
    have hden : 0 ≤ k * (1 + nu) * (1 + nu) := by nlinarith [mul_self_nonneg (1 + nu)]
    positivity
  have hle := eeq_lower_bound (ModMisesEeq.create k nu c) hK2 strain
  have hpos : 0 < ((ModMisesEeq.create k nu c).evaluate strain).1 := by
    have : (0 : ℝ) < 1e-14 := by norm_num
    linarith
  refine ⟨hle, hpos, ?_, ?_⟩
  · unfold LocalDamage.evaluate_kappa
    rw [if_pos hpos.le]
  · unfold GradientDamage.evaluate_kappa
    rw [if_pos hpos.le]

/-- Witness for C10 at `k = 2`, `nu = 0`, uniaxial strain, zero strain. -/
theorem eeq_positive_witness :
    (0 : ℝ) < 2 ∧
    (0 < ((ModMisesEeq.create 2 0 Constraint.UNIAXIAL_STRAIN).evaluate 0).1) := by
  refine ⟨by norm_num, ?_⟩
  exact (eeq_positive 2 0 (by norm_num) 0).2.1

lemma ldSample_eeq_at_zero : (ldSample.eeq.evaluate 0).1 = 1e-14 := by
  rw [evaluate_fst]
  simp [ldSample, LocalDamage.create, ModMisesEeq.create, Matrix.mulVec_zero,
    InvariantI1, InvariantJ2, Real.sqrt_zero]

/-- C7: for a fresh point (stored kappa 0) and any strain whose equivalent
strain lies strictly below the (nonnegative) threshold `k0 = ft/E`,
`LocalDamage::evaluate` returns stress exactly `C * strain` and tangent
exactly `C` (damage 0, vanishing correction term). -/
theorem local_elastic_branch {c : Constraint} (ld : LocalDamage c)
    (strain : Fin (Dim.Q c) → ℝ) (i : ℕ) (h0 : 0 ≤ ld.omega.k0)
    (hfresh : ld.kappa.getD i 0 = 0)
    (hsmall : (ld.eeq.evaluate strain).1 < ld.omega.k0) :
    ((ld.evaluate strain i).1).1 = ld.Cmat.mulVec strain ∧
    ((ld.evaluate strain i).1).2 = ld.Cmat := by
  have hk1 : (LocalDamage.evaluate_kappa (ld.eeq.evaluate strain).1
      (ld.kappa.getD i 0)).1 ≤ ld.omega.k0 := by
    rw [hfresh]
    unfold LocalDamage.evaluate_kappa
    split
    · exact hsmall.le
    · simpa using h0
  have homega : ld.omega.evaluate (LocalDamage.evaluate_kappa
      (ld.eeq.evaluate strain).1 (ld.kappa.getD i 0)).1 = (0, 0) := by
    unfold DamageLawExponential.evaluate
    rw [if_pos hk1]
  have hpair : (ld.evaluate strain i).1 = (ld.Cmat.mulVec strain, ld.Cmat) := by
    simp only [LocalDamage.evaluate, homega]
    simp
  exact ⟨congrArg Prod.fst hpair, congrArg Prod.snd hpair⟩

/-- Witness for C7 at the sample local law and zero strain
(equivalent strain `1e-14 < k0 = 1`). -/
theorem local_elastic_branch_witness :
    (0 : ℝ) ≤ ldSample.omega.k0 ∧
    ldSample.kappa.getD 0 0 = 0 ∧
    (ldSample.eeq.evaluate 0).1 < ldSample.omega.k0 ∧
    ((ldSample.evaluate 0 0).1).1 = ldSample.Cmat.mulVec 0 ∧
    ((ldSample.evaluate 0 0).1).2 = ldSample.Cmat := by
  have h0 : (0 : ℝ) ≤ ldSample.omega.k0 := by
    norm_num [ldSample, LocalDamage.create]
  have hfresh : ldSample.kappa.getD 0 0 = 0 := rfl
  have hsmall : (ldSample.eeq.evaluate 0).1 < ldSample.omega.k0 := by
    rw [ldSample_eeq_at_zero]
    norm_num [ldSample, LocalDamage.create]
  exact ⟨h0, hfresh, hsmall,
    local_elastic_branch ldSample 0 0 h0 hfresh hsmall⟩

/-- C6: every successful `GradientDamage::evaluate` writes the tangent
`d(stress)/d(strain)` exactly as the secant `(1 - omega) * C`, with omega
driven by the nonlocal kappa trial; in particular the written tangent does
not depend on the local strain (no outer-product correction term). -/
theorem gradient_tangent_secant {c : Constraint} (gd : GradientDamage c)
    (strain strain2 : Fin (Dim.Q c) → ℝ) (e : ℝ) (i : ℕ) (ki : ℝ)
    (h : gd.kappa.GetScalar i = some ki) :
    (∀ out gd', gd.evaluate strain e i = some (out, gd') →
      out.dsigma_deps =
        (1 - (gd.omega.evaluate (GradientDamage.evaluate_kappa e ki).1).1) • gd.Cmat) ∧
    (gd.evaluate strain e i).map (fun p => p.1.dsigma_deps) =
      (gd.evaluate strain2 e i).map (fun p => p.1.dsigma_deps) := by
  constructor
  · intro out gd' hev
    unfold GradientDamage.evaluate at hev
    rw [h, Option.map_some'] at hev
    have hb := (Option.some.inj hev).symm
    have h1 : out = _ := congrArg Prod.fst hb
    subst h1
    rfl
  · unfold GradientDamage.evaluate
    rw [h]
    rfl

/-- Witness for C6 at the sample gradient law, zero strains, `e = 1`. -/
theorem gradient_tangent_secant_witness :
    gdSample.kappa.GetScalar 0 = some 0 ∧
    (gdSample.evaluate 0 1 0).map (fun p => p.1.dsigma_deps) =
      (gdSample.evaluate 0 1 0).map (fun p => p.1.dsigma_deps) := by
  have h : gdSample.kappa.GetScalar 0 = some 0 := by
    norm_num [gdSample, GradientDamage.create, QValues.create, QValues.GetScalar]
  exact ⟨h, (gradient_tangent_secant gdSample 0 0 1 0 0 h).2⟩

lemma evaluate_kappa_idem (e k : ℝ) :
    (LocalDamage.evaluate_kappa e (LocalDamage.evaluate_kappa e k).1).1 =
      (LocalDamage.evaluate_kappa e k).1 := by
  unfold LocalDamage.evaluate_kappa
  by_cases hk : k ≤ e
  · rw [if_pos hk]
    dsimp only
    rw [if_pos (le_refl e)]
  · rw [if_neg hk]
    dsimp only
    rw [if_neg hk]

lemma getD_set_self (l : List ℝ) (i : ℕ) (v : ℝ) (h : i < l.length) :
    (l.set i v).getD i 0 = v := by
  rw [List.getD_eq_getElem?_getD (l.set i v) i 0, List.getElem?_set_self h]
  rfl

lemma gradient_update_some {c : Constraint} (gd : GradientDamage c)
    (s : Fin (Dim.Q c) → ℝ) (neeq : ℝ) (j : ℕ)
    (hrc : gd.kappa.rows = 1 ∧ gd.kappa.cols = 1) :
    gd.update s neeq j = some { gd with kappa := { gd.kappa with
      data := gd.kappa.data.set j
        (GradientDamage.evaluate_kappa neeq (gd.kappa.data.getD j 0)).1 } } := by
  unfold GradientDamage.update QValues.GetScalar QValues.SetScalar
  rw [if_pos hrc, Option.some_bind, if_pos hrc, Option.map_some']

lemma gradient_update_eq {c : Constraint} (gd : GradientDamage c)
    (s : Fin (Dim.Q c) → ℝ) (neeq : ℝ) (j : ℕ) (gd' : GradientDamage c)
    (h : gd.update s neeq j = some gd') :
    (gd.kappa.rows = 1 ∧ gd.kappa.cols = 1) ∧
    gd' = { gd with kappa := { gd.kappa with
      data := gd.kappa.data.set j
        (GradientDamage.evaluate_kappa neeq (gd.kappa.data.getD j 0)).1 } } := by
  by_cases hrc : gd.kappa.rows = 1 ∧ gd.kappa.cols = 1
  · refine ⟨hrc, ?_⟩
    rw [gradient_update_some gd s neeq j hrc] at h
    exact (Option.some.inj h).symm
  · exfalso
    unfold GradientDamage.update QValues.GetScalar at h
    rw [if_neg hrc] at h
    cases h

/-- C8: committing the same driving input twice in a row leaves the same
stored history as committing it once: the local law's kappa array is
unchanged by the second `update`, and a successful gradient-law `update`
re-run on its result returns that result unchanged. -/
theorem update_idempotent {c : Constraint} (ld : LocalDamage c)
    (strain : Fin (Dim.Q c) → ℝ) (i : ℕ) (gd gd1 : GradientDamage c)
    (gstrain : Fin (Dim.Q c) → ℝ) (neeq : ℝ) (j : ℕ)
    (h : gd.update gstrain neeq j = some gd1) :
    ((ld.update strain i).update strain i).kappa = (ld.update strain i).kappa ∧
    gd1.update gstrain neeq j = some gd1 := by
  constructor
  · show (ld.kappa.set i
        (LocalDamage.evaluate_kappa (ld.eeq.evaluate strain).1 (ld.kappa.getD i 0)).1).set i
        (LocalDamage.evaluate_kappa (ld.eeq.evaluate strain).1
          ((ld.kappa.set i (LocalDamage.evaluate_kappa (ld.eeq.evaluate strain).1
            (ld.kappa.getD i 0)).1).getD i 0)).1 =
      ld.kappa.set i
        (LocalDamage.evaluate_kappa (ld.eeq.evaluate strain).1 (ld.kappa.getD i 0)).1
    rw [List.set_set]
    by_cases hlen : i < ld.kappa.length
    · rw [getD_set_self ld.kappa i _ hlen, evaluate_kappa_idem]
    · rw [List.set_eq_of_length_le (le_of_not_lt hlen),
        List.set_eq_of_length_le (le_of_not_lt hlen)]
  · obtain ⟨hrc, h1⟩ := gradient_update_eq gd gstrain neeq j gd1 h
    have hrc1 : gd1.kappa.rows = 1 ∧ gd1.kappa.cols = 1 := by
      rw [h1]
      exact hrc
    rw [gradient_update_some gd1 gstrain neeq j hrc1]
    have hdata : gd1.kappa.data.set j
        (GradientDamage.evaluate_kappa neeq (gd1.kappa.data.getD j 0)).1 =
        gd1.kappa.data := by
      rw [h1]
      dsimp only
      rw [List.set_set]
      by_cases hlen : j < gd.kappa.data.length
      · rw [getD_set_self gd.kappa.data j _ hlen]
        exact congrArg (fun x => gd.kappa.data.set j x)
          (evaluate_kappa_idem neeq (gd.kappa.data.getD j 0))
      · rw [List.set_eq_of_length_le (le_of_not_lt hlen),
          List.set_eq_of_length_le (le_of_not_lt hlen)]
    rw [hdata]

/-- Witness for C8 at the sample gradient law, driving value 1, index 0. -/
theorem update_idempotent_witness :
    gdSample.update 0 1 0 = some gdSample ∧
    ((ldSample.update 0 0).update 0 0).kappa = (ldSample.update 0 0).kappa ∧
    gdSample.update 0 1 0 = some gdSample := by
  have h : gdSample.update 0 1 0 = some gdSample := by
    unfold gdSample GradientDamage.create GradientDamage.update QValues.GetScalar
      QValues.SetScalar QValues.create GradientDamage.evaluate_kappa
    norm_num
  exact ⟨h, update_idempotent ldSample 0 0 gdSample gdSample 0 1 0 h⟩

/-- C9: `QValues::Set` with a matrix whose shape differs from the declared
`rows × cols` fails its precondition assertions (modelled as `none`), and
succeeds under matching shape; the scalar `Set` and `GetScalar` likewise
assert `rows = cols = 1`. -/
theorem qvalues_shape_asserts (q : QValues) (v : MatD) (x : ℝ) (i : ℕ) :
    (¬(v.r = q.rows ∧ v.c = q.cols) → q.Set v i = none) ∧
    ((v.r = q.rows ∧ v.c = q.cols) → ∃ q', q.Set v i = some q') ∧
    (¬(q.rows = 1 ∧ q.cols = 1) →
      q.SetScalar x i = none ∧ q.GetScalar i = none) ∧
    ((q.rows = 1 ∧ q.cols = 1) →
      (∃ q', q.SetScalar x i = some q') ∧ ∃ y, q.GetScalar i = some y) := by
  unfold QValues.Set QValues.SetScalar QValues.GetScalar
  refine ⟨fun h => if_neg h, fun h => ⟨_, if_pos h⟩, fun h => ⟨if_neg h, if_neg h⟩,
    fun h => ⟨⟨_, if_pos h⟩, ⟨_, if_pos h⟩⟩⟩

/-- Witness for C9: a 2-column container rejects a 1 x 1 matrix and a scalar
write, and a 1 x 1 container accepts both. -/
theorem qvalues_shape_asserts_witness :
    ¬((1 : ℕ) = 1 ∧ (1 : ℕ) = 2) ∧
    (QValues.create 1 2).Set ⟨1, 1, fun _ _ => 0⟩ 0 = none ∧
    (∃ q', (QValues.create 1 1).Set ⟨1, 1, fun _ _ => 0⟩ 0 = some q') ∧
    ((QValues.create 1 2).SetScalar 0 0 = none ∧
      (QValues.create 1 2).GetScalar 0 = none) ∧
    ((∃ q', (QValues.create 1 1).SetScalar 0 0 = some q') ∧
      ∃ y, (QValues.create 1 1).GetScalar 0 = some y) := by
  refine ⟨by norm_num, ?_, ?_, ?_, ?_⟩
  · exact (qvalues_shape_asserts (QValues.create 1 2) ⟨1, 1, fun _ _ => 0⟩ 0 0).1
      (by norm_num [QValues.create])
  · exact (qvalues_shape_asserts (QValues.create 1 1) ⟨1, 1, fun _ _ => 0⟩ 0 0).2.1
      (by norm_num [QValues.create])
  · exact (qvalues_shape_asserts (QValues.create 1 2) ⟨1, 1, fun _ _ => 0⟩ 0 0).2.2.1
      (by norm_num [QValues.create])
  · exact (qvalues_shape_asserts (QValues.create 1 1) ⟨1, 1, fun _ _ => 0⟩ 0 0).2.2.2
      (by norm_num [QValues.create])

end

end Damage
